import Mathlib

/-!
Verification of the tts-server broadcast engine against its specification.

The development shallowly embeds the Go source:
* `Message`, `HubState`, `applyRegister`, `applyUnregister`, `fanout`,
  `applyBroadcast` embed the `Hub` struct and the three cases of `Hub.run`
  (websocket hub file, the `register`, `unregister` and `broadcast` channel
  cases).
* `sendHandler` / `sendAndProcess` embed `sendHandler`.
* `listenLoopExits`, `handleConnExit`, `runLoop` embed `listenHandler`
  (its ping/read `select` loop and its deferred cleanup).
* `Row`, `inRange`, `rowDescOrder`, `runSelectMessages`, `getMessages`,
  `messagesEndpoint` embed `selectMessagesQuery` / `getMessages` in db.go and
  the authenticated `messages` route in main.go.

Connections are identified by naturals standing for the distinct
`*websocket.Conn` pointers.  The Go map `hub.clients` is modelled as a
duplicate-free list of connection identifiers; map iteration order is
arbitrary in Go, and every property proved below is insensitive to the
order chosen.  `float32` amounts are carried opaquely (no arithmetic is
ever performed on them), and `json.Marshal` of a record of strings and
numbers is modelled as always succeeding.
-/

namespace TTS

/-- A connection identifier, standing for one `*websocket.Conn` handle. -/
abbrev Conn := Nat

/-- The `Message` struct bound by the websocket handlers: display name,
numeric amount (carried opaquely) and body text. -/
structure Message where
  name : String
  amount : Int
  message : String
  deriving DecidableEq

/-- The observable state of the `Hub`: the registered client set
(`hub.clients`), the log of transports on which `Close()` has been called,
and the log of `addMessage` persistence-append invocations (most recent
first). -/
structure HubState where
  clients : List Conn
  closed : List Conn
  appends : List Message
  deriving DecidableEq

/-- The hub at startup: no clients, nothing closed, nothing persisted. -/
def emptyHub : HubState := ⟨[], [], []⟩

/-- The `register` case of `Hub.run`: `hub.clients[client] = true`.
Assigning to a key already in the map leaves membership unchanged. -/
def applyRegister (hub : HubState) (c : Conn) : HubState :=
  if c ∈ hub.clients then hub else { hub with clients := c :: hub.clients }

/-- The `unregister` case of `Hub.run`: if the client is present, it is
deleted from the map and its transport closed; otherwise nothing happens. -/
def applyUnregister (hub : HubState) (c : Conn) : HubState :=
  if c ∈ hub.clients then
    { hub with
      clients := hub.clients.filter (fun x => x ≠ c)
      closed := c :: hub.closed }
  else hub

/-- Observable effects of the fan-out loop in the `broadcast` case of
`Hub.run`: the clients remaining registered, the transports closed during
this broadcast, the clients to which a `WriteMessage` was attempted, and
the number of `addMessage` invocations. -/
structure FanoutResult where
  survivors : List Conn
  closedNow : List Conn
  attempts : List Conn
  appendCount : Nat
  deriving DecidableEq

/-- The fan-out loop body: for each registered client a write (under a
10-second write deadline) is attempted; on error the transport is closed
and the client deleted; `addMessage` is invoked on every iteration,
whether or not the write succeeded.  `writeOk c` tells whether the write
to `c` succeeds (a deadline exceedance surfaces as a write error and is
covered by `writeOk c = false`). -/
def fanout (writeOk : Conn → Bool) : List Conn → FanoutResult
  | [] => ⟨[], [], [], 0⟩
  | c :: rest =>
    let r := fanout writeOk rest
    if writeOk c then
      ⟨c :: r.survivors, r.closedNow, c :: r.attempts, r.appendCount + 1⟩
    else
      ⟨r.survivors, c :: r.closedNow, c :: r.attempts, r.appendCount + 1⟩

/-- The `broadcast` case of `Hub.run`: marshal the message (marshalling a
record of strings and numbers succeeds) and run the fan-out loop over the
current client set. -/
def applyBroadcast (writeOk : Conn → Bool) (msg : Message) (hub : HubState) : HubState :=
  let r := fanout writeOk hub.clients
  { clients := r.survivors
    closed := r.closedNow ++ hub.closed
    appends := List.replicate r.appendCount msg ++ hub.appends }

/-- The write deadline set before every fan-out write
(`SetWriteDeadline(time.Now().Add(10 * time.Second))`). -/
def writeDeadlineSeconds : Nat := 10

/-- The HTTP reply of `sendHandler`. -/
inductive SendReply
  | badRequest (err : String)
  | ok (status : String)
  deriving DecidableEq

/-- `sendHandler` on a successfully bound request body: an empty message
text is rejected with a 400 before anything reaches the broadcast
channel; otherwise the message is submitted to `hub.broadcast` and a 200
success is reported. -/
def sendHandler (req : Message) : Option Message × SendReply :=
  if req.message = "" then
    (none, SendReply.badRequest "Message cannot be empty")
  else
    (some req, SendReply.ok "Message successfully sent")

/-- `sendHandler` composed with the hub processing the submitted
broadcast, giving the resulting hub state and the HTTP reply. -/
def sendAndProcess (writeOk : Conn → Bool) (req : Message) (hub : HubState) :
    HubState × SendReply :=
  match sendHandler req with
  | (none, reply) => (hub, reply)
  | (some msg, reply) => (applyBroadcast writeOk msg hub, reply)

/-- A request arriving on the hub's `register` or `unregister` channel. -/
inductive RegEvent
  | reg (c : Conn)
  | unreg (c : Conn)
  deriving DecidableEq

/-- `Hub.run` processing one registration-channel request. -/
def applyRegEvent (hub : HubState) : RegEvent → HubState
  | RegEvent.reg c => applyRegister hub c
  | RegEvent.unreg c => applyUnregister hub c

/-- `Hub.run` processing a finite sequence of registration-channel
requests in arrival order. -/
def applyRegEvents (evs : List RegEvent) (hub : HubState) : HubState :=
  evs.foldl applyRegEvent hub

/-- Following the specification text: a connection is a member after a
sequence of register/unregister operations exactly when it was registered
and not subsequently unregistered.  `init` is whether it was a member
before the sequence. -/
def specMembership (c : Conn) : List RegEvent → Bool → Bool
  | [], init => init
  | RegEvent.reg d :: rest, init => specMembership c rest (if d = c then true else init)
  | RegEvent.unreg d :: rest, init => specMembership c rest (if d = c then false else init)

/-- The keepalive ping interval (`time.NewTicker(30 * time.Second)`). -/
def pingIntervalSeconds : Nat := 30

/-- Discrete-time state of the `listenHandler` select loop: the current
time, the time at which the next ticker tick is (or was) due, and the
times at which a ping was actually emitted (most recent first). -/
structure LoopState where
  now : Nat
  nextTick : Nat
  pings : List Nat
  deriving DecidableEq

/-- The `for { select { case <-ticker.C: ...; default: ReadMessage() } }`
loop of `listenHandler`, run for a bounded number of iterations.  At each
iteration, if a ticker tick is already pending the ticker branch fires a
ping; otherwise the `default` branch performs a blocking `ReadMessage`,
which returns only when the peer next sends a frame — after `d` seconds,
where `d` is the head of the schedule of inbound-frame gaps (an empty
schedule blocks the loop in the read indefinitely). -/
def runLoop : Nat → List Nat → LoopState → LoopState
  | 0, _, s => s
  | n + 1, ds, s =>
    if s.nextTick ≤ s.now then
      runLoop n ds
        { s with pings := s.now :: s.pings, nextTick := s.nextTick + pingIntervalSeconds }
    else
      match ds with
      | [] => s
      | d :: rest => runLoop n rest { s with now := s.now + d }

/-- An observable step of the `listenHandler` loop: a ping attempt that
succeeds or fails, or a read that succeeds or fails. -/
inductive LoopEvent
  | tickPingOk
  | tickPingErr
  | readOk
  | readErr
  deriving DecidableEq

/-- Whether the `listenHandler` loop has returned after consuming the
given events: successful pings and reads continue the loop, the first
ping failure or read error makes the handler return. -/
def listenLoopExits : List LoopEvent → Bool
  | [] => false
  | LoopEvent.tickPingOk :: rest => listenLoopExits rest
  | LoopEvent.readOk :: rest => listenLoopExits rest
  | LoopEvent.tickPingErr :: _ => true
  | LoopEvent.readErr :: _ => true

/-- The deferred cleanup of `listenHandler`: `hub.unregister <- ws`
(which, if the client is still registered, removes it and closes its
transport) followed by `ws.Close()`. -/
def handleConnExit (hub : HubState) (ws : Conn) : HubState :=
  let h := applyUnregister hub ws
  { h with closed := ws :: h.closed }

/-- The hub state after the `listenHandler` loop consumed the given
events: the deferred cleanup runs exactly when the loop has returned. -/
def listenResult (hub : HubState) (ws : Conn) (evs : List LoopEvent) : HubState :=
  if listenLoopExits evs then handleConnExit hub ws else hub

/-- The connection lifecycle phases of the specification, as realised by
`listenHandler`: handshake in progress, registered, failure detected
(handler returning), and terminal. -/
inductive ConnPhase
  | connecting
  | active
  | closing
  | closed
  deriving DecidableEq

/-- A connection lifecycle event. -/
inductive ConnEvent
  | upgradeOk
  | upgradeFail
  | readErr
  | writeErr
  | pingErr
  | cleanupDone
  deriving DecidableEq

/-- The connection lifecycle transition function realised by the code: a
successful upgrade registers the connection; any read, write or ping
error sends an active connection to `closing`; the deferred
unregister-and-close completes the transition to `closed`; no event moves
a connection out of `closed`. -/
def connStep : ConnPhase → ConnEvent → ConnPhase
  | ConnPhase.connecting, ConnEvent.upgradeOk => ConnPhase.active
  | ConnPhase.connecting, ConnEvent.upgradeFail => ConnPhase.closed
  | ConnPhase.active, ConnEvent.readErr => ConnPhase.closing
  | ConnPhase.active, ConnEvent.writeErr => ConnPhase.closing
  | ConnPhase.active, ConnEvent.pingErr => ConnPhase.closing
  | ConnPhase.closing, ConnEvent.cleanupDone => ConnPhase.closed
  | ConnPhase.closed, _ => ConnPhase.closed
  | s, _ => s

/-- The persisted message record of the current schema (`tts_messages`
row without its creation timestamp), as scanned by `getMessages`. -/
structure StoredMessage where
  sessionID : String
  name : String
  amount : Int
  messageText : String
  description : String
  deriving DecidableEq

/-- One row of `tts_messages`: the message fields together with the
`created_at` timestamp assigned by the persistence layer. -/
structure Row where
  msg : StoredMessage
  createdAt : Int
  deriving DecidableEq

/-- The `WHERE created_at >= $1 AND created_at <= $2` condition of
`selectMessagesQuery`. -/
def inRange (a b : Int) (r : Row) : Bool :=
  decide (a ≤ r.createdAt) && decide (r.createdAt ≤ b)

/-- The `ORDER BY created_at DESC` order of `selectMessagesQuery`. -/
def rowDescOrder (x y : Row) : Prop := y.createdAt ≤ x.createdAt

instance : DecidableRel rowDescOrder :=
  fun x y => inferInstanceAs (Decidable (y.createdAt ≤ x.createdAt))

instance : IsTotal Row rowDescOrder :=
  ⟨fun x y => le_total y.createdAt x.createdAt⟩

instance : IsTrans Row rowDescOrder :=
  ⟨fun _ _ _ h1 h2 => le_trans h2 h1⟩

/-- The result set of `selectMessagesQuery` over a table containing the
given rows: the rows whose `created_at` lies in the inclusive range,
ordered by `created_at` descending. -/
def runSelectMessages (store : List Row) (a b : Int) : List Row :=
  List.insertionSort rowDescOrder (store.filter (inRange a b))

/-- Whether `dbPool.Query` succeeds or fails. -/
inductive DBResult
  | ok
  | fail (err : String)
  deriving DecidableEq

/-- `getMessages` in db.go: on a query error the error is logged and the
empty slice is returned; otherwise the scanned rows are returned without
their timestamps.  (Scanning a well-typed row never fails.) -/
def getMessages (db : DBResult) (store : List Row) (a b : Int) : List StoredMessage :=
  match db with
  | DBResult.fail _ => []
  | DBResult.ok => (runSelectMessages store a b).map Row.msg

/-- Outcome of parsing the `from`/`to` query parameters as RFC3339
timestamps in the `messages` route. -/
inductive ParamParse
  | ok (a b : Int)
  | badFrom
  | badTo
  deriving DecidableEq

/-- The HTTP response of the `messages` route.  `serverError` is the
5xx structured error response the specification expects for persistence
failures; the handler as written never constructs it. -/
inductive MessagesResponse
  | clientError (err : String)
  | serverError (err : String)
  | okMessages (msgs : List StoredMessage)
  deriving DecidableEq

/-- Whether a response is a server error. -/
def isServerError : MessagesResponse → Bool
  | MessagesResponse.serverError _ => true
  | _ => false

/-- The authenticated `messages` route in main.go: malformed timestamps
are rejected with a 400; otherwise the handler always replies 200 with
whatever list `getMessages` returned. -/
def messagesEndpoint (p : ParamParse) (db : DBResult) (store : List Row) : MessagesResponse :=
  match p with
  | ParamParse.badFrom => MessagesResponse.clientError "Invalid from parameter"
  | ParamParse.badTo => MessagesResponse.clientError "Invalid to parameter"
  | ParamParse.ok a b => MessagesResponse.okMessages (getMessages db store a b)

/-! ### Fan-out loop lemmas -/

theorem fanout_attempts (f : Conn → Bool) :
    ∀ l : List Conn, (fanout f l).attempts = l := by
  intro l
  induction l with
  | nil => rfl
  | cons c rest ih =>
    simp only [fanout]
    by_cases h : f c = true <;> simp [h, ih]

theorem fanout_survivors (f : Conn → Bool) :
    ∀ l : List Conn, (fanout f l).survivors = l.filter f := by
  intro l
  induction l with
  | nil => rfl
  | cons c rest ih =>
    simp only [fanout, List.filter]
    by_cases h : f c = true <;> simp [h, ih]

theorem fanout_closedNow (f : Conn → Bool) :
    ∀ l : List Conn, (fanout f l).closedNow = l.filter (fun c => !(f c)) := by
  intro l
  induction l with
  | nil => rfl
  | cons c rest ih =>
    simp only [fanout, List.filter]
    by_cases h : f c = true <;> simp [h, ih]

theorem fanout_appendCount (f : Conn → Bool) :
    ∀ l : List Conn, (fanout f l).appendCount = l.length := by
  intro l
  induction l with
  | nil => rfl
  | cons c rest ih =>
    simp only [fanout, List.length_cons]
    by_cases h : f c = true <;> simp [h, ih]

theorem applyBroadcast_clients (f : Conn → Bool) (msg : Message) (hub : HubState) :
    (applyBroadcast f msg hub).clients = hub.clients.filter f := by
  simp [applyBroadcast, fanout_survivors]

theorem applyBroadcast_closed (f : Conn → Bool) (msg : Message) (hub : HubState) :
    (applyBroadcast f msg hub).closed
      = hub.clients.filter (fun c => !(f c)) ++ hub.closed := by
  simp [applyBroadcast, fanout_closedNow]

theorem applyBroadcast_appends_length (f : Conn → Bool) (msg : Message) (hub : HubState) :
    (applyBroadcast f msg hub).appends.length
      = hub.clients.length + hub.appends.length := by
  simp [applyBroadcast, fanout_appendCount]

/-! ### Claims about the broadcast fan-out -/

/-- Claim C1.  The specification demands that each broadcast message be
appended to persistence exactly once.  The code instead invokes
`addMessage` inside the fan-out loop, once per registered connection:
broadcasting to a registry of two connections (both writes succeeding)
appends the message twice, and broadcasting to an empty registry appends
it zero times — never exactly once. -/
theorem broadcast_appends_once_per_client :
    (applyBroadcast (fun _ => true) (Message.mk "x" 5 "hi")
        (HubState.mk [0, 1] [] [])).appends.length = 2 ∧
    (applyBroadcast (fun _ => true) (Message.mk "x" 5 "hi")
        (HubState.mk [] [] [])).appends.length = 0 := by
  constructor <;> rfl

/-- Claim C2.  Within one broadcast, a write failure to one connection
does not abort delivery to the rest: every connection in the registry at
the start of the fan-out loop receives a write attempt.  Every connection
whose write fails (including by exceeding the 10-second write deadline,
which surfaces as a write error) is removed from the registry and has its
transport closed within that same broadcast. -/
theorem broadcast_write_failure_isolated
    (hub : HubState) (f : Conn → Bool) (msg : Message) (c : Conn) :
    (fanout f hub.clients).attempts = hub.clients ∧
    (c ∈ hub.clients → f c = false →
      c ∉ (applyBroadcast f msg hub).clients ∧
      c ∈ (applyBroadcast f msg hub).closed) ∧
    writeDeadlineSeconds = 10 := by
  refine ⟨fanout_attempts f hub.clients, ?_, rfl⟩
  intro hc hf
  constructor
  · rw [applyBroadcast_clients]
    intro hmem
    have := (List.mem_filter.mp hmem).2
    rw [hf] at this
    exact Bool.false_ne_true this
  · rw [applyBroadcast_closed]
    exact List.mem_append_left _ (List.mem_filter.mpr ⟨hc, by simp [hf]⟩)

/-- Witness for C2 at a concrete registry: in a hub with clients 7 and 8
where only the write to 8 succeeds, client 7 is removed and closed. -/
theorem broadcast_write_failure_isolated_witness :
    7 ∉ (applyBroadcast (fun x => decide (x = 8)) (Message.mk "x" 5 "hi")
          (HubState.mk [7, 8] [] [])).clients ∧
    7 ∈ (applyBroadcast (fun x => decide (x = 8)) (Message.mk "x" 5 "hi")
          (HubState.mk [7, 8] [] [])).closed :=
  (broadcast_write_failure_isolated (HubState.mk [7, 8] [] [])
      (fun x => decide (x = 8)) (Message.mk "x" 5 "hi") 7).2.1
    (by decide) (by decide)

/-- Claim C10.  The number of `addMessage` invocations per broadcast
equals the number of connections registered at the start of the fan-out
loop — counting both failing and succeeding writes — and a broadcast over
an empty registry persists nothing even though `sendHandler` already
reported success to the sender. -/
theorem append_count_equals_registry_size
    (hub : HubState) (f : Conn → Bool) (req : Message) :
    (applyBroadcast f req hub).appends.length
      = hub.clients.length + hub.appends.length ∧
    (req.message ≠ "" →
      (sendAndProcess f req hub).2 = SendReply.ok "Message successfully sent" ∧
      (sendAndProcess f req hub).1.appends.length
        = hub.clients.length + hub.appends.length) := by
  refine ⟨applyBroadcast_appends_length f req hub, ?_⟩
  intro h
  constructor
  · simp [sendAndProcess, sendHandler, h]
  · simp only [sendAndProcess, sendHandler, if_neg h]
    exact applyBroadcast_appends_length f req hub

/-- Witness for C10: sending a non-empty message to an empty registry
reports success yet appends nothing to persistence. -/
theorem append_count_equals_registry_size_witness :
    (sendAndProcess (fun _ => true) (Message.mk "x" 5 "hi") emptyHub).2
      = SendReply.ok "Message successfully sent" ∧
    (sendAndProcess (fun _ => true) (Message.mk "x" 5 "hi") emptyHub).1.appends.length
      = emptyHub.clients.length + emptyHub.appends.length :=
  (append_count_equals_registry_size emptyHub (fun _ => true)
      (Message.mk "x" 5 "hi")).2 (by decide)

/-! ### Register / unregister lemmas -/

theorem applyUnregister_absent (hub : HubState) (c : Conn) (h : c ∉ hub.clients) :
    applyUnregister hub c = hub := by
  simp [applyUnregister, h]

theorem applyUnregister_not_mem (hub : HubState) (c : Conn) :
    c ∉ (applyUnregister hub c).clients := by
  by_cases hc : c ∈ hub.clients <;> simp [applyUnregister, hc]

theorem mem_applyRegister (hub : HubState) (d c : Conn) :
    c ∈ (applyRegister hub d).clients ↔ (d = c ∨ c ∈ hub.clients) := by
  by_cases hd : d ∈ hub.clients
  · simp only [applyRegister, if_pos hd]
    constructor
    · exact Or.inr
    · rintro (rfl | hc)
      · exact hd
      · exact hc
  · simp only [applyRegister, if_neg hd, List.mem_cons]
    constructor
    · rintro (rfl | hc)
      · exact Or.inl rfl
      · exact Or.inr hc
    · rintro (rfl | hc)
      · exact Or.inl rfl
      · exact Or.inr hc

theorem mem_applyUnregister (hub : HubState) (d c : Conn) :
    c ∈ (applyUnregister hub d).clients ↔ (d ≠ c ∧ c ∈ hub.clients) := by
  by_cases hd : d ∈ hub.clients
  · simp only [applyUnregister, if_pos hd, List.mem_filter, decide_eq_true_eq]
    constructor
    · rintro ⟨hc, hne⟩
      exact ⟨fun h => hne h.symm, hc⟩
    · rintro ⟨hne, hc⟩
      exact ⟨hc, fun h => hne h.symm⟩
  · simp only [applyUnregister, if_neg hd]
    constructor
    · intro hc
      refine ⟨?_, hc⟩
      rintro rfl
      exact hd hc
    · exact And.right

theorem applyRegister_nodup (hub : HubState) (c : Conn) (h : hub.clients.Nodup) :
    (applyRegister hub c).clients.Nodup := by
  by_cases hc : c ∈ hub.clients
  · simpa [applyRegister, hc]
  · simp [applyRegister, hc, h]

theorem applyUnregister_nodup (hub : HubState) (c : Conn) (h : hub.clients.Nodup) :
    (applyUnregister hub c).clients.Nodup := by
  by_cases hc : c ∈ hub.clients
  · simp only [applyUnregister, if_pos hc]
    exact h.filter _
  · simpa [applyUnregister, hc]

theorem applyRegister_length (hub : HubState) (c : Conn) (h : c ∉ hub.clients) :
    (applyRegister hub c).clients.length = hub.clients.length + 1 := by
  simp [applyRegister, h]

theorem applyRegEvents_mem (c : Conn) :
    ∀ (evs : List RegEvent) (hub : HubState) (init : Bool),
      (c ∈ hub.clients ↔ init = true) →
      (c ∈ (applyRegEvents evs hub).clients ↔ specMembership c evs init = true) := by
  intro evs
  induction evs with
  | nil =>
    intro hub init h
    exact h
  | cons e rest ih =>
    intro hub init h
    cases e with
    | reg d =>
      refine ih (applyRegister hub d) (if d = c then true else init) ?_
      by_cases hd : d = c
      · simp [mem_applyRegister, hd]
      · rw [if_neg hd, mem_applyRegister, ← h]
        simp [hd]
    | unreg d =>
      refine ih (applyUnregister hub d) (if d = c then false else init) ?_
      by_cases hd : d = c
      · subst hd
        constructor
        · intro hc
          exact absurd hc (applyUnregister_not_mem hub d)
        · intro hc
          rw [if_pos rfl] at hc
          exact absurd hc Bool.false_ne_true
      · rw [if_neg hd, mem_applyUnregister, ← h]
        simp [hd]

theorem applyRegEvents_nodup :
    ∀ (evs : List RegEvent) (hub : HubState), hub.clients.Nodup →
      (applyRegEvents evs hub).clients.Nodup := by
  intro evs
  induction evs with
  | nil =>
    intro hub h
    exact h
  | cons e rest ih =>
    intro hub h
    cases e with
    | reg d => exact ih (applyRegister hub d) (applyRegister_nodup hub d h)
    | unreg d => exact ih (applyUnregister hub d) (applyUnregister_nodup hub d h)

/-! ### Claims about registration and unregistration -/

/-- Claim C3.  After any finite sequence of register/unregister requests
processed by `Hub.run` from startup, a connection is in the registry
exactly when the sequence registered it and did not subsequently
unregister it; the registry never holds duplicate entries; and
registering a not-yet-present connection grows the membership count by
exactly one. -/
theorem registry_membership_exact (evs : List RegEvent) :
    (∀ c : Conn, c ∈ (applyRegEvents evs emptyHub).clients
      ↔ specMembership c evs false = true) ∧
    (applyRegEvents evs emptyHub).clients.Nodup ∧
    (∀ (hub : HubState) (c : Conn), c ∉ hub.clients →
      (applyRegister hub c).clients.length = hub.clients.length + 1) := by
  refine ⟨?_, applyRegEvents_nodup evs emptyHub (by simp [emptyHub]), applyRegister_length⟩
  intro c
  exact applyRegEvents_mem c evs emptyHub false (by simp [emptyHub])

/-- Witness for C3 on the sequence register 1, register 2, unregister 2:
connection 1 is a member afterwards, and registering 5 into the empty hub
yields membership count 1. -/
theorem registry_membership_exact_witness :
    ((1 : Conn) ∈ (applyRegEvents
        [RegEvent.reg 1, RegEvent.reg 2, RegEvent.unreg 2] emptyHub).clients) ∧
    (applyRegister emptyHub 5).clients.length = emptyHub.clients.length + 1 := by
  constructor
  · exact ((registry_membership_exact
        [RegEvent.reg 1, RegEvent.reg 2, RegEvent.unreg 2]).1 1).mpr (by decide)
  · exact (registry_membership_exact []).2.2 emptyHub 5 (by decide)

/-- Claim C4.  `unregister` removes a present connection and closes its
transport, is a no-op on an absent connection, and applying it twice
equals applying it once. -/
theorem unregister_idempotent (hub : HubState) (c : Conn) :
    (c ∈ hub.clients →
      c ∉ (applyUnregister hub c).clients ∧ c ∈ (applyUnregister hub c).closed) ∧
    (c ∉ hub.clients → applyUnregister hub c = hub) ∧
    applyUnregister (applyUnregister hub c) c = applyUnregister hub c := by
  refine ⟨?_, applyUnregister_absent hub c,
    applyUnregister_absent (applyUnregister hub c) c (applyUnregister_not_mem hub c)⟩
  intro hc
  exact ⟨applyUnregister_not_mem hub c, by simp [applyUnregister, hc]⟩

/-- Witness for C4: unregistering connection 3 from a hub containing it
removes it, and unregistering 3 from the empty hub changes nothing. -/
theorem unregister_idempotent_witness :
    3 ∉ (applyUnregister (HubState.mk [3] [] []) 3).clients ∧
    applyUnregister emptyHub 3 = emptyHub := by
  constructor
  · exact ((unregister_idempotent (HubState.mk [3] [] []) 3).1 (by decide)).1
  · exact (unregister_idempotent emptyHub 3).2.1 (by decide)

/-- Claim C5.  A message with empty body text is rejected with a client
error before reaching the broadcast channel, leaving the hub state
(registry and persistence log) unchanged; a message with non-empty body
is submitted to broadcast and success is reported. -/
theorem send_empty_body_rejected (hub : HubState) (f : Conn → Bool) (req : Message) :
    (req.message = "" →
      sendAndProcess f req hub
        = (hub, SendReply.badRequest "Message cannot be empty")) ∧
    (req.message ≠ "" →
      sendAndProcess f req hub
        = (applyBroadcast f req hub, SendReply.ok "Message successfully sent")) := by
  constructor
  · intro h
    simp [sendAndProcess, sendHandler, h]
  · intro h
    simp [sendAndProcess, sendHandler, h]

/-- Witness for C5: an empty-bodied message leaves a one-client hub
untouched with a 400, and a non-empty message is broadcast with a 200. -/
theorem send_empty_body_rejected_witness :
    sendAndProcess (fun _ => true) (Message.mk "a" 1 "") (HubState.mk [4] [] [])
      = (HubState.mk [4] [] [], SendReply.badRequest "Message cannot be empty") ∧
    sendAndProcess (fun _ => true) (Message.mk "a" 1 "hi") emptyHub
      = (applyBroadcast (fun _ => true) (Message.mk "a" 1 "hi") emptyHub,
          SendReply.ok "Message successfully sent") := by
  constructor
  · exact (send_empty_body_rejected (HubState.mk [4] [] [])
      (fun _ => true) (Message.mk "a" 1 "")).1 (by decide)
  · exact (send_empty_body_rejected emptyHub
      (fun _ => true) (Message.mk "a" 1 "hi")).2 (by decide)

/-! ### Listen-loop lemmas -/

theorem listenLoopExits_of_err :
    ∀ evs : List LoopEvent,
      (LoopEvent.tickPingErr ∈ evs ∨ LoopEvent.readErr ∈ evs) →
      listenLoopExits evs = true := by
  intro evs
  induction evs with
  | nil =>
    intro h
    rcases h with h | h <;> simp at h
  | cons e rest ih =>
    intro h
    cases e with
    | tickPingOk =>
      apply ih
      simpa using h
    | readOk =>
      apply ih
      simpa using h
    | tickPingErr => rfl
    | readErr => rfl

theorem handleConnExit_not_mem (hub : HubState) (ws : Conn) :
    ws ∉ (handleConnExit hub ws).clients :=
  applyUnregister_not_mem hub ws

theorem handleConnExit_closed (hub : HubState) (ws : Conn) :
    ws ∈ (handleConnExit hub ws).closed :=
  List.mem_cons_self ws _

theorem handleConnExit_mem_other (hub : HubState) (ws c : Conn) (h : c ≠ ws) :
    (c ∈ (handleConnExit hub ws).clients ↔ c ∈ hub.clients) := by
  show c ∈ (applyUnregister hub ws).clients ↔ c ∈ hub.clients
  rw [mem_applyUnregister]
  constructor
  · exact And.right
  · intro hc
    exact ⟨fun e => h e.symm, hc⟩

/-! ### Claims about the connection lifecycle -/

/-- Claim C9.  A heartbeat-send failure or any inbound read error makes
the `listenHandler` loop return, at which point the deferred cleanup
unregisters the connection (removing it from the registry) and closes its
transport; every other connection is left exactly as it was, so the error
never propagates beyond the failing connection; and no lifecycle
transition leaves the `closed` phase. -/
theorem conn_error_contained (hub : HubState) (ws : Conn) (evs : List LoopEvent) :
    ((LoopEvent.tickPingErr ∈ evs ∨ LoopEvent.readErr ∈ evs) →
      listenResult hub ws evs = handleConnExit hub ws) ∧
    ws ∉ (handleConnExit hub ws).clients ∧
    ws ∈ (handleConnExit hub ws).closed ∧
    (∀ c : Conn, c ≠ ws →
      (c ∈ (handleConnExit hub ws).clients ↔ c ∈ hub.clients)) ∧
    (∀ e : ConnEvent, connStep ConnPhase.closed e = ConnPhase.closed) := by
  refine ⟨?_, handleConnExit_not_mem hub ws, handleConnExit_closed hub ws,
    fun c hc => handleConnExit_mem_other hub ws c hc, fun e => by cases e <;> rfl⟩
  intro h
  simp [listenResult, listenLoopExits_of_err evs h]

/-- Witness for C9: with clients 1 and 2 registered and the loop for
client 1 observing a successful read followed by a read error, the
cleanup runs, client 1 is gone and closed, and client 2 is untouched. -/
theorem conn_error_contained_witness :
    listenResult (HubState.mk [1, 2] [] []) 1 [LoopEvent.readOk, LoopEvent.readErr]
      = handleConnExit (HubState.mk [1, 2] [] []) 1 ∧
    (2 ∈ (handleConnExit (HubState.mk [1, 2] [] []) 1).clients
      ↔ 2 ∈ (HubState.mk [1, 2] [] []).clients) ∧
    connStep ConnPhase.closed ConnEvent.readErr = ConnPhase.closed := by
  refine ⟨?_, ?_, ?_⟩
  · exact (conn_error_contained (HubState.mk [1, 2] [] []) 1
      [LoopEvent.readOk, LoopEvent.readErr]).1 (Or.inr (by decide))
  · exact (conn_error_contained (HubState.mk [1, 2] [] []) 1
      [LoopEvent.readOk, LoopEvent.readErr]).2.2.2.1 2 (by decide)
  · exact (conn_error_contained (HubState.mk [1, 2] [] []) 1
      [LoopEvent.readOk, LoopEvent.readErr]).2.2.2.2 ConnEvent.readErr

/-! ### Claims about the keepalive scheduling -/

/-- Claim C8.  The specification requires the heartbeat timer to fire on
schedule even while a read is pending.  The code instead uses a `select`
whose `default` branch performs a blocking `ReadMessage`: starting at
time 0 with the first tick due at 30 seconds, a peer that stays silent
for 100 seconds keeps the loop blocked in the read, and the first ping is
emitted only at time 100 — 70 seconds after its tick was due. -/
theorem blocked_read_delays_heartbeat :
    (runLoop 2 [100] (LoopState.mk 0 pingIntervalSeconds [])).pings = [100] ∧
    pingIntervalSeconds < 100 := by
  constructor
  · rfl
  · decide

/-! ### Claims about the range query -/

/-- Claim C6.  For `from ≤ to`, the range query returns exactly the rows
whose stored creation time lies in the inclusive range, ordered by
creation time descending; a range containing zero rows yields the empty
sequence rather than an error; and `getMessages` returns those rows
stripped of their timestamps. -/
theorem query_range_inclusive_desc (store : List Row) (a b : Int) (hab : a ≤ b) :
    List.Perm (runSelectMessages store a b) (store.filter (inRange a b)) ∧
    List.Sorted rowDescOrder (runSelectMessages store a b) ∧
    (store.filter (inRange a b) = [] → runSelectMessages store a b = []) ∧
    getMessages DBResult.ok store a b = (runSelectMessages store a b).map Row.msg := by
  refine ⟨List.perm_insertionSort rowDescOrder _,
    List.sorted_insertionSort rowDescOrder _, ?_, rfl⟩
  intro h
  simp [runSelectMessages, h]

/-- Witness for C6 on a two-row table queried over `[0, 10]`: only the
row stamped 5 is in range, the result is sorted descending, and
`getMessages` projects it. -/
theorem query_range_inclusive_desc_witness :
    List.Sorted rowDescOrder
      (runSelectMessages
        [Row.mk (StoredMessage.mk "s" "n" 1 "m" "d") 5,
          Row.mk (StoredMessage.mk "s" "n" 2 "m2" "d") 20] 0 10) ∧
    getMessages DBResult.ok
        [Row.mk (StoredMessage.mk "s" "n" 1 "m" "d") 5,
          Row.mk (StoredMessage.mk "s" "n" 2 "m2" "d") 20] 0 10
      = (runSelectMessages
          [Row.mk (StoredMessage.mk "s" "n" 1 "m" "d") 5,
            Row.mk (StoredMessage.mk "s" "n" 2 "m2" "d") 20] 0 10).map Row.msg := by
  constructor
  · exact (query_range_inclusive_desc
      [Row.mk (StoredMessage.mk "s" "n" 1 "m" "d") 5,
        Row.mk (StoredMessage.mk "s" "n" 2 "m2" "d") 20] 0 10 (by decide)).2.1
  · exact (query_range_inclusive_desc
      [Row.mk (StoredMessage.mk "s" "n" 1 "m" "d") 5,
        Row.mk (StoredMessage.mk "s" "n" 2 "m2" "d") 20] 0 10 (by decide)).2.2.2

/-- Claim C7 counterexample: with well-formed timestamps and a failing
persistence query, the `messages` route replies with a successful
response carrying an empty message list — not a server error. -/
theorem query_failure_not_server_error_cex :
    messagesEndpoint (ParamParse.ok 0 10) (DBResult.fail "connection refused") []
      = MessagesResponse.okMessages [] ∧
    isServerError
      (messagesEndpoint (ParamParse.ok 0 10) (DBResult.fail "connection refused") [])
      = false := by
  constructor <;> rfl

/-- Claim C7 as amended: for every range-query request whose timestamps
parse correctly, a persistence query failure is only logged; the caller
receives a successful response with an empty message list, never a
server error. -/
theorem query_failure_returns_empty_ok (a b : Int) (err : String) (store : List Row) :
    messagesEndpoint (ParamParse.ok a b) (DBResult.fail err) store
      = MessagesResponse.okMessages [] ∧
    isServerError (messagesEndpoint (ParamParse.ok a b) (DBResult.fail err) store)
      = false := by
  constructor <;> rfl

end TTS
